import Mathlib

/-!
# Verification of the zodfig config merge-and-override model

Shallow embedding of `src/packages/zodfig/src/index.ts`.

The repository's core is the `ZodFig` class: an immutable pairing of a zod
schema and a config value, with `merge`, `override` and `overrideAync`
composition operations, plus the orchestration functions `run` and the
watch-mode `go` closure inside `cli`.

Data values are JSON-like structured values (`Value`).  The deep-merge used
by `merge`/`override` is performed in the source by the external `merge-deep`
npm package, whose source is not part of this repository; it is modelled
from the spec (see `mergeVal`).  The zod schema operations (`.merge`,
`.parse`) are likewise external (the `zod` package) and are modelled from
the spec.
-/

namespace Zodfig

/-- A JSON-like runtime value: terminals (string / number / boolean / null),
sequences (`arr`) and structured mapping-like objects (`obj`, an ordered
association list of distinct field names). -/
inductive Value where
  | str : String → Value
  | num : Int → Value
  | bool : Bool → Value
  | null : Value
  | arr : List Value → Value
  | obj : List (String × Value) → Value

/-- Property lookup on an object's field list (first occurrence). -/
def lookupField (k : String) : List (String × Value) → Option Value
  | [] => none
  | p :: rest => if p.fst = k then some p.snd else lookupField k rest

/-- JS property assignment on an existing key: replace the value of the first
occurrence of `k`, keeping its position; other fields unchanged. -/
def replaceField (k : String) (w : Value) : List (String × Value) → List (String × Value)
  | [] => []
  | p :: rest => if p.fst = k then (p.fst, w) :: rest else p :: replaceField k w rest

/-- JavaScript objects have distinct property names; an object field list is
well formed when no key occurs twice. -/
def noDupKeys : List (String × Value) → Bool
  | [] => true
  | p :: rest => (lookupField p.fst rest).isNone && noDupKeys rest

/-- The ordered list of field names of an object field list. -/
def fieldKeys (f : List (String × Value)) : List String := f.map Prod.fst

mutual
/-- Modelled from the spec: the recursive deep-merge performed in the source
by the external `merge-deep` package (absent from `src/`), exactly as §4.1
describes it: a field on one side only is taken as-is; a field on both sides
with two structured (object) values is merged recursively; otherwise (at
least one terminal value, sequences counting as terminals) the second
operand's value wins and replaces the first's entirely. -/
def mergeVal : Value → Value → Value
  | Value.obj t, Value.obj o => Value.obj (mergeObj t o)
  | _, v2 => v2

/-- Merge the fields of the second object into the first, field by field in
order: an existing key's value is merged in place via `mergeVal`, a new key
is appended at the end. -/
def mergeObj (t : List (String × Value)) : List (String × Value) → List (String × Value)
  | [] => t
  | (k, v) :: rest =>
    match lookupField k t with
    | some tv => mergeObj (replaceField k (mergeVal tv v) t) rest
    | none => mergeObj (t ++ [(k, v)]) rest
end

/-- How two present field values combine under the deep-merge rule; used to
state the per-field characterisation of `mergeObj`. -/
def mergeLook : Option Value → Option Value → Option Value
  | some a, some b => some (mergeVal a b)
  | some a, none => some a
  | none, ob => ob

/-- Whether a value is structured (mapping-like). -/
def Value.isObj : Value → Bool
  | Value.obj _ => true
  | _ => false

/-- Modelled from the spec: a zod schema as a tagged variant tree
(object-of-fields / sequence-of / terminal), per §9 of the spec; the `zod`
package's own source is external to this repository. -/
inductive SchemaV where
  | sString : SchemaV
  | sNumber : SchemaV
  | sBoolean : SchemaV
  | sArray : SchemaV → SchemaV
  | sObject : List (String × SchemaV) → SchemaV

/-- Schema field lookup. -/
def lookupSField (k : String) : List (String × SchemaV) → Option SchemaV
  | [] => none
  | p :: rest => if p.fst = k then some p.snd else lookupSField k rest

/-- Modelled from the spec: `this._schema.merge(merging._schema)` — the
structural union of two object schemas; a field present in either is present
in the result, and on a key present in both the second schema's sub-schema
is taken (the spec leaves incompatible shapes an unchecked hazard). -/
def extendSFields (f1 : List (String × SchemaV)) : List (String × SchemaV) → List (String × SchemaV)
  | [] => f1
  | (k, s) :: rest =>
    match lookupSField k f1 with
    | some _ => extendSFields (f1.map (fun p => if p.fst = k then (p.fst, s) else p)) rest
    | none => extendSFields (f1 ++ [(k, s)]) rest

/-- Modelled from the spec: zod object-schema merge (structural union). -/
def SchemaV.merge : SchemaV → SchemaV → SchemaV
  | SchemaV.sObject f1, SchemaV.sObject f2 => SchemaV.sObject (extendSFields f1 f2)
  | _, s2 => s2

/-- Every field the object schema declares is present in the value. -/
def keysCovered (fs : List (String × SchemaV)) (f : List (String × Value)) : Bool :=
  fs.all (fun p => (lookupField p.fst f).isSome)

mutual
/-- Modelled from the spec: whether a value conforms to a schema —
`Schema.validate(data)` succeeds exactly on conforming values (§6).  An
object conforms when every declared field is present and conforming;
unknown fields are tolerated (zod strips them). -/
def conformsV : Value → SchemaV → Bool
  | Value.str _, SchemaV.sString => true
  | Value.num _, SchemaV.sNumber => true
  | Value.bool _, SchemaV.sBoolean => true
  | Value.arr xs, SchemaV.sArray es => conformsElems xs es
  | Value.obj f, SchemaV.sObject fs => keysCovered fs f && conformsFields f fs
  | _, _ => false

/-- Every element of a sequence conforms to the element schema. -/
def conformsElems : List Value → SchemaV → Bool
  | [], _ => true
  | x :: xs, es => conformsV x es && conformsElems xs es

/-- Every object field with a declared schema conforms to it. -/
def conformsFields : List (String × Value) → List (String × SchemaV) → Bool
  | [], _ => true
  | (k, v) :: rest, fs =>
    (match lookupSField k fs with
     | some s => conformsV v s
     | none => true) && conformsFields rest fs
end

/-- The errors JavaScript code in `run` can observe: zod validation errors,
the repository's `KnownError`, and the runtime's TypeError / ReferenceError /
anything else. -/
inductive JsErr where
  | zodError : JsErr
  | knownError : String → JsErr
  | typeError : String → JsErr
  | referenceError : String → JsErr
  | other : String → JsErr
deriving DecidableEq, Repr

/-- Modelled from the spec: `schema.parse(data)` — returns the validated
value or fails with a ZodError; a missing (`undefined`) data value does not
conform to an object schema. -/
def SchemaV.parse (s : SchemaV) : Option Value → Except JsErr Value
  | none => Except.error JsErr.zodError
  | some v => if conformsV v s then Except.ok v else Except.error JsErr.zodError

/-- The `ZodFig` class: an immutable pairing of a schema (`_schema`) and a
config value (`_config`, possibly absent).  The constructor stores both
fields as given; its `Object.freeze` side effect on the stored reference is
modelled separately (`objectFreeze`/`writeAt` below), since pure values
cannot alias. -/
structure ZodFig where
  _schema : SchemaV
  _config : Option Value

/-- The data value a `ZodFig` contributes to a merge: `this._config ?? {}` —
an absent config acts as the empty structured value. -/
def ZodFig.effData (u : ZodFig) : Value := u._config.getD (Value.obj [])

/-- `ZodFig.merge`: `new ZodFig(this._schema.merge(merging._schema),
mergeDeep({}, this._config ?? {}, merging._config ?? {}))`. -/
def ZodFig.merge (u m : ZodFig) : ZodFig :=
  { _schema := SchemaV.merge u._schema m._schema
    _config := some (mergeVal u.effData m.effData) }

/-- `ZodFig.override`: `new ZodFig(this._schema, mergeDeep({}, this._config,
config))`.  `mergeDeep` starts from a fresh `{}` and skips a missing
`this._config`, so an absent config again acts as the empty object. -/
def ZodFig.override (u : ZodFig) (c : Value) : ZodFig :=
  { _schema := u._schema
    _config := some (mergeVal u.effData c) }

/-- `ZodFig.overrideAync`: awaits `overrider(this._config)` and applies
`override` to its result; a rejection of the overrider propagates and no new
`ZodFig` is produced.  The suspension is entirely inside the caller-supplied
function, so the `Promise` is modelled by `Except`: `Except.ok` is a promise
resolved with the function's eventual output, `Except.error` a rejection
with its cause. -/
def ZodFig.overrideAync (u : ZodFig) (overrider : Option Value → Except JsErr Value) :
    Except JsErr ZodFig :=
  match overrider u._config with
  | Except.ok c => Except.ok (u.override c)
  | Except.error e => Except.error e

/-! ## The freeze / mutation model

`Object.freeze` and property assignment concern object identity and
in-place mutation, which pure `Value`s cannot express.  `HVal` models the
mutable object graph the constructor actually stores: each object node
carries its frozen flag, and the caller's reference and the stored `_config`
alias the same graph, so a property write through any reference is a write
on the stored graph. -/

/-- A mutable JavaScript value: a terminal (`prim`, abstracted to an
integer) or an object node with its ECMAScript frozen flag and fields. -/
inductive HVal where
  | prim : Int → HVal
  | node : Bool → List (String × HVal) → HVal

/-- ECMAScript `Object.freeze(v)`: marks the object `v` itself
non-writable and returns it; nested objects are untouched and primitives
are returned as-is.  This is the constructor's whole freezing step:
`if (this._config) Object.freeze(this._config)`. -/
def objectFreeze : HVal → HVal
  | HVal.node _ fs => HVal.node true fs
  | v => v

/-- The constructor's side effect on the stored config reference: a present
config is passed to `Object.freeze`, an absent one is left alone. -/
def zodfigConstructFreeze : Option HVal → Option HVal
  | some v => some (objectFreeze v)
  | none => none

/-- Assignment `o[k] = w` on a field list: replaces the first occurrence of
`k` in place, or adds the property at the end. -/
def setFieldH (k : String) (w : HVal) : List (String × HVal) → List (String × HVal)
  | [] => [(k, w)]
  | p :: rest => if p.fst = k then (p.fst, w) :: rest else p :: setFieldH k w rest

/-- Apply `f` to the value of field `k` (first occurrence), if present. -/
def updateFieldH (k : String) (f : HVal → HVal) : List (String × HVal) → List (String × HVal)
  | [] => []
  | p :: rest => if p.fst = k then (p.fst, f p.snd) :: rest else p :: updateFieldH k f rest

/-- A property write `v.k1.k2…kn = w` through a reference to `v`:
navigation steps ignore the frozen flags of the objects passed through,
and the final assignment on the innermost object is ineffective exactly
when that object is frozen (ECMAScript: ignored in sloppy mode, TypeError
in strict mode — either way the stored data does not change).  A write
through a missing path or into a primitive changes nothing. -/
def writeAt : HVal → List String → HVal → HVal
  | v, [], _ => v
  | HVal.node fr fs, [k], w => if fr then HVal.node fr fs else HVal.node fr (setFieldH k w fs)
  | HVal.node fr fs, k :: rest, w => HVal.node fr (updateFieldH k (fun c => writeAt c rest w) fs)
  | HVal.prim n, _, _ => HVal.prim n

/-- Read the value at a field path, for observing mutation effects. -/
def readAt : HVal → List String → Option HVal
  | v, [] => some v
  | HVal.node _ fs, k :: rest =>
    match fs.lookup k with
    | some c => readAt c rest
    | none => none
  | HVal.prim _, _ :: _ => none

/-! ## The `run` orchestration function

`run(filepath, print)` loads a config-definition file, invokes its default
export, validates the resulting unit's data, and writes the output, with one
`try`/`catch` around the whole body.  File-system and module-loading
collaborators are abstracted into a `RunEnv` describing their outcomes;
the `console.log` calls are recorded as a trace of `LogMsg`s. -/

/-- The per-file console messages `run` can emit. -/
inductive LogMsg where
  | writingConfig : String → LogMsg
  | zodValidationErr : LogMsg
  | knownErrMsg : String → LogMsg
  | unexpectedErr : LogMsg
  | printedConfig : LogMsg
  | configWritten : String → LogMsg
deriving DecidableEq, Repr

/-- The module object `require(filepath)` produced: whether its default
export is a function, and if so what `ZodFig` the (awaited) factory call
produces, or how either step fails. -/
structure RunEnv where
  /-- `fs.existsSync(filepath)` -/
  fileExists : Bool
  /-- outcome of `require(filepath)`: the loaded module's default export is
  a function (`true`) or not, or loading itself threw -/
  requireResult : Except JsErr Bool
  /-- outcome of `await fn()` -/
  factoryResult : Except JsErr ZodFig
  /-- outcome of `await write(parsed)` -/
  writeResult : Except JsErr Unit

/-- How `run` returns to its caller: normally, or by raising an error that
escaped its `try`/`catch`.  Both carry the emitted log trace. -/
inductive RunOutcome where
  | normal : List LogMsg → RunOutcome
  | raised : JsErr → List LogMsg → RunOutcome
deriving DecidableEq, Repr

/-- The `catch (e)` block of `run`: classify and report the error. -/
def catchLog : JsErr → LogMsg
  | JsErr.zodError => LogMsg.zodValidationErr
  | JsErr.knownError m => LogMsg.knownErrMsg m
  | _ => LogMsg.unexpectedErr

/-- The `run` function of the source, lines 147–178.  A missing file
returns from inside the `try`, skipping everything below.  The body —
`require`, the default-export check (`KnownError`), the factory call,
`schema.parse`, optional printing, `write` — is wrapped in the
`try`/`catch`, which reports any error and falls through.  After the
`catch`, `if (isWatching && runIn === INITIAL_WORKING_DIR)` evaluates the
identifier `runIn`, which is declared nowhere in the module: when
`isWatching` is `true`, short-circuiting reaches it and the lookup throws
`ReferenceError`, outside the `try`/`catch`. -/
def run (env : RunEnv) (filepath : String) (print isWatching : Bool) : RunOutcome :=
  if env.fileExists = false then
    RunOutcome.normal []
  else
    let inner : Except JsErr (List LogMsg) :=
      match env.requireResult with
      | Except.error e => Except.error e
      | Except.ok isFn =>
        if isFn = false then
          Except.error (JsErr.knownError "Expected filepath to export default function.")
        else
          match env.factoryResult with
          | Except.error e => Except.error e
          | Except.ok zodfig =>
            match SchemaV.parse zodfig._schema zodfig._config with
            | Except.error e => Except.error e
            | Except.ok _ =>
              match env.writeResult with
              | Except.error e => Except.error e
              | Except.ok _ =>
                Except.ok ((if print then [LogMsg.printedConfig] else []) ++
                  [LogMsg.configWritten filepath])
    let logs := LogMsg.writingConfig filepath ::
      (match inner with
       | Except.ok ls => ls
       | Except.error e => [catchLog e])
    if isWatching then RunOutcome.raised (JsErr.referenceError "runIn") logs
    else RunOutcome.normal logs

/-! ## The watch-mode `go` closure

Inside `cli`'s action, the closure `go(filepaths)` guards generation runs
with the flags `going` / `shouldRego`: a call while a run is in flight
records `shouldRego` and returns; when the in-flight run finishes, a
recorded `shouldRego` schedules exactly one follow-up via
`setTimeout(go, 0)` — which passes `go` no arguments.

JavaScript is single-threaded and `go`'s only suspension point is
`await run(...)`, so an invocation splits into a synchronous entry up to
that `await` (`goEntry`) and a synchronous completion after it
(`goFinish`); watcher events that arrive during the run are themselves
`goEntry` calls, and timers fire between invocations. -/

/-- The mutable state captured by `go`: its two flags, the module-level
`isWatching`, the pending `setTimeout` callbacks (each recorded with the
argument list the scheduled call will receive — `none` when no argument is
passed), and the trace of `run` invocations actually started (the
`filepaths[0]` each received). -/
structure GoState where
  going : Bool
  shouldRego : Bool
  isWatching : Bool
  timers : List (Option (List String))
  runsStarted : List (Option String)
deriving DecidableEq, Repr

/-- How the synchronous entry of a `go(filepaths)` invocation ends. -/
inductive GoEntryResult where
  /-- `going` was set: recorded `shouldRego = true` and returned. -/
  | earlyReturn : GoEntryResult
  /-- evaluating `filepaths[0]` threw TypeError (`filepaths` was
  `undefined` because the call received no argument); the body aborted
  with `going` already set to `true`. -/
  | threw : GoEntryResult
  /-- `run(filepaths[0], …)` started; the invocation is now suspended at
  the `await`. -/
  | started : GoEntryResult
deriving DecidableEq, Repr

/-- The start of `go(filepaths)` up to `await run(filepaths[0], !!verbose)`:
the `going` guard, the `shouldRego` reset, `going = true`,
`isWatching = !!watch`, then the evaluation of `filepaths[0]`. -/
def goEntry (watch : Bool) (args : Option (List String)) (s : GoState) :
    GoState × GoEntryResult :=
  if s.going then
    ({ s with shouldRego := true }, GoEntryResult.earlyReturn)
  else
    let s := { s with shouldRego := false, going := true, isWatching := watch }
    match args with
    | none => (s, GoEntryResult.threw)
    | some fps => ({ s with runsStarted := s.runsStarted ++ [fps.head?] }, GoEntryResult.started)

/-- The end of a `go` invocation after its awaited run completes: if
`shouldRego` was recorded, schedule `setTimeout(go, 0)` — with no
arguments — then clear `going`. -/
def goFinish (s : GoState) : GoState :=
  let s := if s.shouldRego then { s with timers := s.timers ++ [none] } else s
  { s with going := false }

/-- The initial state of `cli`'s action: flags clear, nothing scheduled. -/
def goInit : GoState :=
  { going := false, shouldRego := false, isWatching := false, timers := [], runsStarted := [] }

/-! ## Concrete instances used by the theorems below -/

/-- A small example schema: `z.object({ x: z.number() })`. -/
def demoSchema : SchemaV := SchemaV.sObject [("x", SchemaV.sNumber)]

/-- A config value conforming to `demoSchema`. -/
def demoConfig : Value := Value.obj [("x", Value.num 1)]

/-- A two-level mutable config object `{ a: { b: 1 } }`, not yet frozen. -/
def sampleConfigH : HVal := HVal.node false [("a", HVal.node false [("b", HVal.prim 1)])]

/-- A `run` environment in which every collaborator succeeds: the file
exists, the module loads with a default-export function, the factory
resolves to a valid unit, and writing succeeds. -/
def runEnvOk : RunEnv :=
  { fileExists := true
    requireResult := Except.ok true
    factoryResult := Except.ok (ZodFig.mk demoSchema (some demoConfig))
    writeResult := Except.ok () }

/-- A `run` environment whose config-definition file does not exist. -/
def runEnvMissing : RunEnv :=
  { fileExists := false
    requireResult := Except.ok true
    factoryResult := Except.ok (ZodFig.mk demoSchema (some demoConfig))
    writeResult := Except.ok () }

/-- An overrider function that resolves with the empty structured value. -/
def okOverrider : Option Value → Except JsErr Value :=
  fun _ => Except.ok (Value.obj [])

/-- An overrider function that rejects. -/
def failOverrider : Option Value → Except JsErr Value :=
  fun _ => Except.error (JsErr.other "boom")

/-- Watch-mode scenario, step 1: a change event starts `go(configFiles)`
from idle; it begins `run("zodfig.ts", …)` and suspends at the `await`. -/
def goS1 : GoState × GoEntryResult := goEntry true (some ["zodfig.ts"]) goInit

/-- Step 2: a change event fires while that run is in flight. -/
def goS2 : GoState × GoEntryResult := goEntry true (some ["zodfig.ts"]) goS1.fst

/-- Step 3: another change event fires, still during the same run. -/
def goS3 : GoState × GoEntryResult := goEntry true (some ["zodfig.ts"]) goS2.fst

/-- Step 4: the in-flight run completes; `go` resumes after its `await`,
schedules the coalesced rerun via `setTimeout(go, 0)` and clears `going`. -/
def goS4 : GoState := goFinish goS3.fst

/-- Step 5: the event loop fires the scheduled timer, invoking `go` with
the argument list the timer recorded (none was passed). -/
def goS5 : GoState × GoEntryResult := goEntry true (goS4.timers.headD none) goS4

/-! ## Supporting lemmas about the deep-merge -/

theorem lookupField_append (k : String) (t1 t2 : List (String × Value)) :
    lookupField k (t1 ++ t2) =
      (match lookupField k t1 with
       | some v => some v
       | none => lookupField k t2) := by
  induction t1 with
  | nil => simp [lookupField]
  | cons p t1 ih =>
    by_cases h : p.fst = k <;> simp [lookupField, h, ih]

theorem lookupField_replaceField_self (k : String) (w : Value) (t : List (String × Value)) :
    lookupField k (replaceField k w t) = (lookupField k t).map (fun _ => w) := by
  induction t with
  | nil => simp [lookupField, replaceField]
  | cons p t ih =>
    by_cases h : p.fst = k <;> simp [lookupField, replaceField, h, ih]

theorem lookupField_replaceField_ne (k k' : String) (w : Value) (t : List (String × Value))
    (h : k' ≠ k) : lookupField k (replaceField k' w t) = lookupField k t := by
  induction t with
  | nil => simp [replaceField]
  | cons p t ih =>
    by_cases hp : p.fst = k'
    · simp [replaceField, hp, lookupField, h, Ne.symm h]
    · by_cases hk : p.fst = k <;> simp [replaceField, hp, lookupField, hk, ih, Ne.symm h]

theorem fieldKeys_replaceField (k : String) (w : Value) (t : List (String × Value)) :
    fieldKeys (replaceField k w t) = fieldKeys t := by
  induction t with
  | nil => simp [replaceField]
  | cons p t ih =>
    by_cases h : p.fst = k
    · simp [replaceField, h, fieldKeys]
    · simp [replaceField, h, fieldKeys]
      simpa [fieldKeys] using ih

theorem fieldKeys_nil : fieldKeys [] = [] := rfl

theorem fieldKeys_cons (p : String × Value) (f : List (String × Value)) :
    fieldKeys (p :: f) = p.fst :: fieldKeys f := rfl

theorem lookupField_eq_none_iff (k : String) (f : List (String × Value)) :
    lookupField k f = none ↔ k ∉ fieldKeys f := by
  induction f with
  | nil => simp [lookupField, fieldKeys]
  | cons p f ih =>
    rw [fieldKeys_cons]
    by_cases h : p.fst = k
    · subst h
      simp [lookupField]
    · simp only [lookupField, h, if_false, List.mem_cons, not_or]
      rw [ih]
      constructor
      · intro hn
        exact ⟨fun hc => h hc.symm, hn⟩
      · intro hn
        exact hn.2

theorem lookupField_isSome_iff (k : String) (f : List (String × Value)) :
    (lookupField k f).isSome = true ↔ k ∈ fieldKeys f := by
  constructor
  · intro h
    by_contra hc
    rw [← lookupField_eq_none_iff] at hc
    simp [hc] at h
  · intro h
    cases hc : lookupField k f with
    | some v => simp
    | none => exact absurd h (by simpa using (lookupField_eq_none_iff k f).mp hc)

theorem replaceField_isNone_eq (k k2 : String) (w : Value) (t : List (String × Value)) :
    (lookupField k2 (replaceField k w t)).isNone = (lookupField k2 t).isNone := by
  by_cases h : k = k2
  · subst h
    rw [lookupField_replaceField_self]
    cases lookupField k t <;> simp
  · rw [lookupField_replaceField_ne _ _ _ _ h]

/-- Per-field characterisation of the deep-merge: the merged object's field
`k` is the first operand's value when only it has `k`, the second operand's
when only it has `k`, and `mergeVal` of the two (recursive merge for two
objects, second wins otherwise) when both do. -/
theorem lookupField_mergeObj (k : String) :
    ∀ (o t : List (String × Value)), noDupKeys o = true →
      lookupField k (mergeObj t o) = mergeLook (lookupField k t) (lookupField k o) := by
  intro o
  induction o with
  | nil =>
    intro t _
    cases h : lookupField k t <;> simp [mergeObj, mergeLook, h, lookupField]
  | cons p rest ih =>
    intro t hnd
    obtain ⟨k', v⟩ := p
    rw [noDupKeys] at hnd
    rw [Bool.and_eq_true] at hnd
    have hnone : lookupField k' rest = none := by
      have := hnd.1
      cases hc : lookupField k' rest <;> simp [hc] at this ⊢
    have hrest : noDupKeys rest = true := hnd.2
    rw [mergeObj]
    cases hlt : lookupField k' t with
    | some tv =>
      rw [ih _ hrest]
      by_cases hk : k' = k
      · subst hk
        rw [lookupField_replaceField_self, hlt, hnone]
        simp [lookupField, mergeLook, hlt]
      · rw [lookupField_replaceField_ne _ _ _ _ hk]
        simp [lookupField, hk]
    | none =>
      rw [ih _ hrest]
      rw [lookupField_append]
      by_cases hk : k' = k
      · subst hk
        rw [hlt, hnone]
        simp [lookupField, mergeLook]
      · simp only [lookupField, hk, if_false]
        cases hm : lookupField k t <;> simp [mergeLook, hm]

theorem fieldKeys_append (a b : List (String × Value)) :
    fieldKeys (a ++ b) = fieldKeys a ++ fieldKeys b := by
  simp [fieldKeys]

theorem fieldKeys_filter_key (q : String → Bool) (f : List (String × Value)) :
    fieldKeys (f.filter (fun p => q p.fst)) = (fieldKeys f).filter q := by
  induction f with
  | nil => simp [fieldKeys]
  | cons p f ih =>
    by_cases h : q p.fst <;> simp [fieldKeys, List.filter, h] <;>
      simpa [fieldKeys] using ih

/-- The keys of a merged object: the first operand's keys in order, then the
second operand's new keys in order. -/
theorem fieldKeys_mergeObj :
    ∀ (o t : List (String × Value)), noDupKeys o = true →
      fieldKeys (mergeObj t o) =
        fieldKeys t ++ fieldKeys (o.filter (fun p => (lookupField p.fst t).isNone)) := by
  intro o
  induction o with
  | nil => intro t _; simp [mergeObj, fieldKeys]
  | cons p rest ih =>
    intro t hnd
    obtain ⟨k', v⟩ := p
    rw [noDupKeys] at hnd
    rw [Bool.and_eq_true] at hnd
    have hnone : lookupField k' rest = none := by
      have := hnd.1
      cases hc : lookupField k' rest <;> simp [hc] at this ⊢
    have hmem : ∀ p ∈ rest, p.fst ≠ k' := by
      intro p hp
      have := (lookupField_eq_none_iff k' rest).mp hnone
      intro hc
      exact this (hc ▸ (List.mem_map_of_mem Prod.fst hp))
    have hrest : noDupKeys rest = true := hnd.2
    rw [mergeObj]
    cases hlt : lookupField k' t with
    | some tv =>
      rw [ih _ hrest, fieldKeys_replaceField]
      have hcong : rest.filter (fun p => (lookupField p.fst (replaceField k' (mergeVal tv v) t)).isNone)
          = rest.filter (fun p => (lookupField p.fst t).isNone) := by
        apply List.filter_congr
        intro p _
        rw [replaceField_isNone_eq]
      rw [hcong]
      simp [List.filter, hlt]
    | none =>
      rw [ih _ hrest, fieldKeys_append]
      have hcong : rest.filter (fun p => (lookupField p.fst (t ++ [(k', v)])).isNone)
          = rest.filter (fun p => (lookupField p.fst t).isNone) := by
        apply List.filter_congr
        intro p hp
        rw [lookupField_append]
        cases hm : lookupField p.fst t with
        | some w => simp
        | none => simp [lookupField, Ne.symm (hmem p hp)]
      rw [hcong]
      simp [List.filter, hlt, fieldKeys]

theorem noDupKeys_iff_nodup (f : List (String × Value)) :
    noDupKeys f = true ↔ (fieldKeys f).Nodup := by
  induction f with
  | nil => simp [noDupKeys, fieldKeys]
  | cons p f ih =>
    rw [noDupKeys, Bool.and_eq_true, ih]
    constructor
    · rintro ⟨h1, h2⟩
      refine List.nodup_cons.mpr ⟨?_, h2⟩
      have : lookupField p.fst f = none := by
        cases hc : lookupField p.fst f <;> simp [hc] at h1 ⊢
      exact (lookupField_eq_none_iff _ _).mp this
    · intro h
      have h' := List.nodup_cons.mp h
      refine ⟨?_, h'.2⟩
      have := (lookupField_eq_none_iff p.fst f).mpr h'.1
      simp [this]

theorem noDupKeys_mergeObj (t o : List (String × Value))
    (ht : noDupKeys t = true) (ho : noDupKeys o = true) :
    noDupKeys (mergeObj t o) = true := by
  have hfk := fieldKeys_filter_key (fun s => (lookupField s t).isNone) o
  rw [noDupKeys_iff_nodup] at ht ho ⊢
  rw [fieldKeys_mergeObj o t (by rw [noDupKeys_iff_nodup]; exact ho)]
  rw [List.nodup_append]
  refine ⟨ht, ?_, ?_⟩
  · rw [hfk]
    exact ho.sublist (List.filter_sublist _)
  · intro k hk1 hk2
    rw [hfk, List.mem_filter] at hk2
    have hn : lookupField k t = none := by
      cases hc : lookupField k t <;> simp [hc] at hk2 ⊢
    exact absurd hk1 ((lookupField_eq_none_iff k t).mp hn)

/-- Two well-formed field lists with the same key sequence and the same
per-key lookups are equal. -/
theorem fields_ext :
    ∀ (l1 l2 : List (String × Value)), noDupKeys l1 = true →
      fieldKeys l1 = fieldKeys l2 →
      (∀ k, lookupField k l1 = lookupField k l2) → l1 = l2 := by
  intro l1
  induction l1 with
  | nil =>
    intro l2 _ hk _
    cases l2 with
    | nil => rfl
    | cons q l2 => simp [fieldKeys] at hk
  | cons p l1 ih =>
    intro l2 hnd hk hl
    cases l2 with
    | nil => simp [fieldKeys] at hk
    | cons q l2 =>
      obtain ⟨k1, v1⟩ := p
      obtain ⟨k2, v2⟩ := q
      rw [fieldKeys_cons, fieldKeys_cons] at hk
      rw [List.cons.injEq] at hk
      obtain ⟨hkey, htail⟩ := hk
      simp only at hkey
      subst hkey
      have hv : v1 = v2 := by
        have := hl k1
        simp [lookupField] at this
        exact this
      subst hv
      rw [noDupKeys, Bool.and_eq_true] at hnd
      have hnone1 : lookupField k1 l1 = none := by
        have := hnd.1
        cases hc : lookupField k1 l1 <;> simp [hc] at this ⊢
      have hnone2 : lookupField k1 l2 = none := by
        rw [lookupField_eq_none_iff, ← htail, ← lookupField_eq_none_iff]
        exact hnone1
      have htails : ∀ k, lookupField k l1 = lookupField k l2 := by
        intro k
        by_cases h : k1 = k
        · subst h; rw [hnone1, hnone2]
        · have := hl k
          simpa [lookupField, h] using this
      rw [ih l2 hnd.2 htail htails]

theorem mergeLook_isNone (x y : Option Value) :
    (mergeLook x y).isNone = (x.isNone && y.isNone) := by
  cases x <;> cases y <;> simp [mergeLook]

theorem mergeLook_assoc (la lb lc : Option Value)
    (h : ¬(la.isSome = true ∧ lb.isSome = true ∧ lc.isSome = true)) :
    mergeLook (mergeLook la lb) lc = mergeLook la (mergeLook lb lc) := by
  cases la <;> cases lb <;> cases lc <;> simp [mergeLook] at h ⊢

/-- Associativity of the deep-merge on well-formed objects no key of which
is shared by all three operands. -/
theorem mergeObj_assoc (A B C : List (String × Value))
    (hA : noDupKeys A = true) (hB : noDupKeys B = true) (hC : noDupKeys C = true)
    (hdisj : ∀ k ∈ fieldKeys A, ¬(k ∈ fieldKeys B ∧ k ∈ fieldKeys C)) :
    mergeObj (mergeObj A B) C = mergeObj A (mergeObj B C) := by
  have hBC : noDupKeys (mergeObj B C) = true := noDupKeys_mergeObj B C hB hC
  apply fields_ext
  · exact noDupKeys_mergeObj _ C (noDupKeys_mergeObj A B hA hB) hC
  · -- key sequences agree
    have hfAB := fieldKeys_filter_key
      (fun s => ((lookupField s A).isNone && (lookupField s B).isNone)) C
    have hfA1 := fieldKeys_filter_key (fun s => (lookupField s A).isNone) B
    have hfA2 := fieldKeys_filter_key (fun s => (lookupField s A).isNone) (mergeObj B C)
    have hfB := fieldKeys_filter_key (fun s => (lookupField s B).isNone) C
    rw [fieldKeys_mergeObj C _ hC, fieldKeys_mergeObj B A hB,
      fieldKeys_mergeObj _ A hBC]
    have hCfilter : C.filter (fun p => (lookupField p.fst (mergeObj A B)).isNone)
        = C.filter (fun p => ((lookupField p.fst A).isNone && (lookupField p.fst B).isNone)) := by
      apply List.filter_congr
      intro p _
      rw [lookupField_mergeObj p.fst B A hB, mergeLook_isNone]
    rw [hCfilter, hfAB, hfA1, hfA2]
    rw [fieldKeys_mergeObj C B hC, hfB]
    rw [List.filter_append, List.filter_filter]
    rw [List.append_assoc]
  · -- per-key lookups agree
    intro k
    rw [lookupField_mergeObj k C _ hC, lookupField_mergeObj k B A hB,
      lookupField_mergeObj k _ A hBC, lookupField_mergeObj k C B hC]
    apply mergeLook_assoc
    rintro ⟨ha, hb, hc⟩
    exact hdisj k ((lookupField_isSome_iff k A).mp ha)
      ⟨(lookupField_isSome_iff k B).mp hb, (lookupField_isSome_iff k C).mp hc⟩

/-! ## Claim theorems -/

/-- C1: for every pair of ConfigUnits `a` and `b`, the data of `a.merge(b)`
(and likewise of `a.override(p)`) is the recursive deep-merge of the two
data values, an absent data value acting as the empty structured value; and
the deep-merge itself works field by field: a field present on only one
side is taken as-is, a field present on both sides combines by `mergeVal`,
which merges recursively when both values are structured and takes the
second operand's value when at least one is terminal. -/
theorem merge_deepMerge_spec :
    (∀ a b : ZodFig, (a.merge b)._config = some (mergeVal a.effData b.effData))
    ∧ (∀ (a : ZodFig) (p : Value), (a.override p)._config = some (mergeVal a.effData p))
    ∧ (∀ (t o : List (String × Value)) (k : String), noDupKeys o = true →
        lookupField k (mergeObj t o) = mergeLook (lookupField k t) (lookupField k o))
    ∧ (∀ f1 f2 : List (String × Value),
        mergeVal (Value.obj f1) (Value.obj f2) = Value.obj (mergeObj f1 f2))
    ∧ (∀ v1 v2 : Value, v1.isObj = false ∨ v2.isObj = false → mergeVal v1 v2 = v2) := by
  refine ⟨fun a b => rfl, fun a p => rfl,
    fun t o k h => lookupField_mergeObj k o t h, fun f1 f2 => rfl, ?_⟩
  intro v1 v2 h
  cases v1 <;> cases v2 <;> first
    | rfl
    | simp [Value.isObj] at h

theorem merge_deepMerge_spec_witness :
    (noDupKeys [("a", Value.num 2)] = true ∧
      lookupField "a" (mergeObj [("a", Value.num 1)] [("a", Value.num 2)]) =
        mergeLook (lookupField "a" [("a", Value.num 1)]) (lookupField "a" [("a", Value.num 2)]))
    ∧ ((Value.num 1).isObj = false ∨ (Value.obj []).isObj = false) ∧
      mergeVal (Value.num 1) (Value.obj []) = Value.obj [] :=
  ⟨⟨by decide, merge_deepMerge_spec.2.2.1 [("a", Value.num 1)] [("a", Value.num 2)] "a" (by decide)⟩,
    Or.inl rfl, merge_deepMerge_spec.2.2.2.2 (Value.num 1) (Value.obj []) (Or.inl rfl)⟩

/-- C2: sequences are terminal for the merge: when both sides of a merge or
override carry a sequence for the same field, the second operand's sequence
replaces the first's wholesale, with no element-wise merge or concatenation;
in particular `a.override({tags:["x"]})` on data `{tags:["a","b"]}` yields
data `{tags:["x"]}`. -/
theorem sequence_replaced_wholesale :
    (∀ xs ys : List Value, mergeVal (Value.arr xs) (Value.arr ys) = Value.arr ys)
    ∧ (∀ (v : Value) (ys : List Value), mergeVal v (Value.arr ys) = Value.arr ys)
    ∧ ((ZodFig.mk (SchemaV.sObject [("tags", SchemaV.sArray SchemaV.sString)])
          (some (Value.obj [("tags", Value.arr [Value.str "a", Value.str "b"])]))).override
          (Value.obj [("tags", Value.arr [Value.str "x"])]))._config
        = some (Value.obj [("tags", Value.arr [Value.str "x"])]) := by
  refine ⟨fun xs ys => rfl, ?_, rfl⟩
  intro v ys
  cases v <;> rfl

/-- C3 counterexample: the constructor's `Object.freeze(this._config)` is a
shallow freeze, so mutating the nested field `a.b` of the config `{a:{b:1}}`
through the caller's reference does change the unit's stored data — the
claimed deep-freeze invariant is false at depth 2. -/
theorem deep_freeze_counterexample :
    (zodfigConstructFreeze (some sampleConfigH)).map
        (fun v => writeAt v ["a", "b"] (HVal.prim 2))
      ≠ zodfigConstructFreeze (some sampleConfigH) := by
  intro h
  have h2 := congrArg (fun w => w.bind (fun v => readAt v ["a", "b"])) h
  simp [sampleConfigH, zodfigConstructFreeze, objectFreeze, writeAt, readAt,
    updateFieldH, setFieldH, List.lookup] at h2

/-- C3 amended: the constructor freezes the stored data shallowly — a
mutation of a top-level field through any reference leaves the stored data
unchanged, but a nested field (depth ≥ 2) remains mutable, as the concrete
write to `a.b` shows; composition operations themselves return new
ConfigUnits without mutating their operands. -/
theorem shallow_freeze_amended :
    (∀ (d : HVal) (k : String) (w : HVal), writeAt (objectFreeze d) [k] w = objectFreeze d)
    ∧ (writeAt (objectFreeze sampleConfigH) ["a", "b"] (HVal.prim 2)
        = HVal.node true [("a", HVal.node false [("b", HVal.prim 2)])]) := by
  refine ⟨?_, rfl⟩
  intro d k w
  cases d <;> simp [objectFreeze, writeAt]

/-- C4 counterexample: on a ConfigUnit constructed with absent data,
`override` with the empty structured value produces data `{}` — a present
empty object — which does not deep-equal the original absent data, so the
claim fails for units whose data is absent. -/
theorem override_empty_counterexample :
    ((ZodFig.mk demoSchema none).override (Value.obj []))._config
      ≠ (ZodFig.mk demoSchema none)._config := by
  simp [ZodFig.override, ZodFig.effData]

/-- C4 amended: on every ConfigUnit whose data is present and structured,
`override` with the empty structured value returns a ConfigUnit with the
same schema and data deep-equal to the original; on a unit with absent
data it returns the same schema and the empty structured value as data. -/
theorem override_empty_amended :
    (∀ (s : SchemaV) (f : List (String × Value)),
        ((ZodFig.mk s (some (Value.obj f))).override (Value.obj []))._config
            = some (Value.obj f)
        ∧ ((ZodFig.mk s (some (Value.obj f))).override (Value.obj []))._schema = s)
    ∧ (∀ s : SchemaV,
        ((ZodFig.mk s none).override (Value.obj []))._config = some (Value.obj [])
        ∧ ((ZodFig.mk s none).override (Value.obj []))._schema = s) :=
  ⟨fun _ _ => ⟨rfl, rfl⟩, fun _ => ⟨rfl, rfl⟩⟩

/-- C5: `overrideAync(f)` resolves to exactly `override(v)` when the
caller-supplied function resolves with `v`, and when the function fails the
returned promise fails with the same cause and no new ConfigUnit is
produced (the original unit, a pure value, is untouched). -/
theorem overrideAync_spec :
    (∀ (u : ZodFig) (f : Option Value → Except JsErr Value) (v : Value),
        f u._config = Except.ok v → u.overrideAync f = Except.ok (u.override v))
    ∧ (∀ (u : ZodFig) (f : Option Value → Except JsErr Value) (e : JsErr),
        f u._config = Except.error e → u.overrideAync f = Except.error e) := by
  constructor <;> intro u f x h <;> simp [ZodFig.overrideAync, h]

theorem overrideAync_spec_witness :
    (okOverrider (ZodFig.mk demoSchema (some demoConfig))._config = Except.ok (Value.obj [])
      ∧ (ZodFig.mk demoSchema (some demoConfig)).overrideAync okOverrider
        = Except.ok ((ZodFig.mk demoSchema (some demoConfig)).override (Value.obj [])))
    ∧ (failOverrider (ZodFig.mk demoSchema (some demoConfig))._config
        = Except.error (JsErr.other "boom")
      ∧ (ZodFig.mk demoSchema (some demoConfig)).overrideAync failOverrider
        = Except.error (JsErr.other "boom")) :=
  ⟨⟨rfl, overrideAync_spec.1 (ZodFig.mk demoSchema (some demoConfig))
      okOverrider (Value.obj []) rfl⟩,
    ⟨rfl, overrideAync_spec.2 (ZodFig.mk demoSchema (some demoConfig))
      failOverrider (JsErr.other "boom") rfl⟩⟩

/-- C6, failing input: with every collaborator succeeding and `isWatching`
set (watch mode), `run` does not return normally — after its `try`/`catch`
it evaluates the undeclared identifier `runIn` and raises a
`ReferenceError`, contradicting the claim that `run` never raises. -/
theorem run_watch_raises :
    run runEnvOk "zodfig.ts" false true
      = RunOutcome.raised (JsErr.referenceError "runIn")
          [LogMsg.writingConfig "zodfig.ts", LogMsg.configWritten "zodfig.ts"] := rfl

/-- C7: `merge` is associative on data when no field is shared by all three
operands: for well-formed object data with no key present in `a`, `b` and
`c` at once, `(a.merge(b)).merge(c)` and `a.merge(b.merge(c))` carry equal
data. -/
theorem merge_assoc_disjoint (s1 s2 s3 : SchemaV) (fa fb fc : List (String × Value))
    (ha : noDupKeys fa = true) (hb : noDupKeys fb = true) (hc : noDupKeys fc = true)
    (hdisj : ∀ k ∈ fieldKeys fa, ¬(k ∈ fieldKeys fb ∧ k ∈ fieldKeys fc)) :
    (((ZodFig.mk s1 (some (Value.obj fa))).merge (ZodFig.mk s2 (some (Value.obj fb)))).merge
        (ZodFig.mk s3 (some (Value.obj fc))))._config
      = ((ZodFig.mk s1 (some (Value.obj fa))).merge
          ((ZodFig.mk s2 (some (Value.obj fb))).merge
            (ZodFig.mk s3 (some (Value.obj fc)))))._config := by
  show some (mergeVal (Value.obj (mergeObj fa fb)) (Value.obj fc))
    = some (mergeVal (Value.obj fa) (Value.obj (mergeObj fb fc)))
  rw [show mergeVal (Value.obj (mergeObj fa fb)) (Value.obj fc)
      = Value.obj (mergeObj (mergeObj fa fb) fc) from rfl]
  rw [show mergeVal (Value.obj fa) (Value.obj (mergeObj fb fc))
      = Value.obj (mergeObj fa (mergeObj fb fc)) from rfl]
  rw [mergeObj_assoc fa fb fc ha hb hc hdisj]

theorem merge_assoc_disjoint_witness :
    (noDupKeys [("x", Value.num 1)] = true
      ∧ noDupKeys [("y", Value.num 2)] = true
      ∧ noDupKeys [("x", Value.num 3), ("z", Value.num 4)] = true
      ∧ ∀ k ∈ fieldKeys [("x", Value.num 1)],
          ¬(k ∈ fieldKeys [("y", Value.num 2)]
            ∧ k ∈ fieldKeys [("x", Value.num 3), ("z", Value.num 4)]))
    ∧ (((ZodFig.mk demoSchema (some (Value.obj [("x", Value.num 1)]))).merge
          (ZodFig.mk demoSchema (some (Value.obj [("y", Value.num 2)])))).merge
          (ZodFig.mk demoSchema (some (Value.obj [("x", Value.num 3), ("z", Value.num 4)]))))._config
        = ((ZodFig.mk demoSchema (some (Value.obj [("x", Value.num 1)]))).merge
            ((ZodFig.mk demoSchema (some (Value.obj [("y", Value.num 2)]))).merge
              (ZodFig.mk demoSchema
                (some (Value.obj [("x", Value.num 3), ("z", Value.num 4)])))))._config :=
  ⟨⟨by decide, by decide, by decide, by decide⟩,
    merge_assoc_disjoint demoSchema demoSchema demoSchema
      [("x", Value.num 1)] [("y", Value.num 2)] [("x", Value.num 3), ("z", Value.num 4)]
      (by decide) (by decide) (by decide) (by decide)⟩

/-- C8: the ConfigUnit component performs no schema validation — even on
data the schema rejects, construction stores the data unchanged and
`override`, `merge` and `overrideAync` all complete normally with data
given by the merge rule, never raising a ValidationError; validation
happens only when `run` later applies `schema.parse` to the unit's data,
where the failure surfaces as a reported ZodError. -/
theorem no_validation_in_ops (s : SchemaV) (c : Option Value) (p : Value)
    (hbad : SchemaV.parse s c = Except.error JsErr.zodError) :
    (ZodFig.mk s c)._config = c
    ∧ ((ZodFig.mk s c).override p)._config = some (mergeVal (c.getD (Value.obj [])) p)
    ∧ (∀ m : ZodFig, ((ZodFig.mk s c).merge m)._config
        = some (mergeVal (c.getD (Value.obj [])) m.effData))
    ∧ (∀ (f : Option Value → Except JsErr Value) (v : Value), f c = Except.ok v →
        (ZodFig.mk s c).overrideAync f = Except.ok ((ZodFig.mk s c).override v))
    ∧ run { fileExists := true, requireResult := Except.ok true,
            factoryResult := Except.ok (ZodFig.mk s c), writeResult := Except.ok () }
          "zodfig.ts" false false
        = RunOutcome.normal [LogMsg.writingConfig "zodfig.ts", LogMsg.zodValidationErr] := by
  refine ⟨rfl, rfl, fun m => rfl, ?_, ?_⟩
  · intro f v h
    simp [ZodFig.overrideAync, h]
  · simp [run, hbad, catchLog]

theorem no_validation_in_ops_witness :
    SchemaV.parse demoSchema (some (Value.str "bad")) = Except.error JsErr.zodError
    ∧ (ZodFig.mk demoSchema (some (Value.str "bad")))._config = some (Value.str "bad") :=
  ⟨rfl, (no_validation_in_ops demoSchema (some (Value.str "bad")) (Value.obj []) rfl).1⟩

/-- C9, failing input: in watch mode, change events arriving while a run is
in flight are recorded (`shouldRego`) and coalesced into a single
`setTimeout(go, 0)` — but that call passes `go` no arguments, so when the
timer fires the queued invocation evaluates `filepaths[0]` on `undefined`
and throws a TypeError instead of starting the follow-up run, leaving
`going` stuck at `true`; the claimed follow-up generation run never
happens. -/
theorem watch_coalesce_rerun_bug :
    goS1.snd = GoEntryResult.started
    ∧ goS2.snd = GoEntryResult.earlyReturn
    ∧ goS3.snd = GoEntryResult.earlyReturn
    ∧ goS4.timers = [none]
    ∧ goS4.going = false
    ∧ goS5.snd = GoEntryResult.threw
    ∧ goS5.fst.runsStarted = [some "zodfig.ts"]
    ∧ goS5.fst.going = true := by
  refine ⟨rfl, rfl, rfl, rfl, rfl, rfl, rfl, rfl⟩

/-- C10: `run` on a filepath that does not exist on disk returns
immediately and silently: no module is loaded, nothing is validated or
written, no message is printed and no error is raised, regardless of the
print and watch flags. -/
theorem run_missing_file_silent (env : RunEnv) (fp : String) (pr w : Bool)
    (h : env.fileExists = false) : run env fp pr w = RunOutcome.normal [] := by
  simp [run, h]

theorem run_missing_file_silent_witness :
    runEnvMissing.fileExists = false
    ∧ run runEnvMissing "zodfig.ts" true true = RunOutcome.normal [] :=
  ⟨rfl, run_missing_file_silent runEnvMissing "zodfig.ts" true true rfl⟩

end Zodfig
